import Mathlib

/-!
Verification of the pogo-bot visual UI-automation core against its
natural-language specification.  The Python sources (io_fast.py, pogo_cv.py,
pogo_ui.py) are shallowly embedded below: byte streams become `List Nat`
(one entry per byte), images become an `Img` record carrying the decoded
dimensions and pixel payload, OpenCV calls become oracle parameters, wall
clock time is accounted explicitly (each `time.sleep(poll)` advances the
clock by `poll`; Python floats are modelled as rationals), and code that can
raise returns `Except`.
-/

/-! ## Frame Transport: io_fast.PngStream.next_png

`next_png` reads from the screencap byte stream.  `read n` on the buffered
stream returns the next `min n remaining` bytes, so it is modelled by
`List.take`/`List.drop`.  Python truthiness `if not bs` on a bytes object is
emptiness. -/

/-- The 8-byte PNG magic signature b"\x89PNG\r\n\x1a\n". -/
def pngMagic : List Nat := [137, 80, 78, 71, 13, 10, 26, 10]

/-- The 4 type bytes of the terminal chunk, b"IEND". -/
def iendType : List Nat := [73, 69, 78, 68]

/-- `int.from_bytes(bs, "big")`. -/
def beNat (bs : List Nat) : Nat := bs.foldl (fun a b => a * 256 + b) 0

/-- The chunk loop of `PngStream.next_png` (io_fast.py lines 73-85): read
(length, type, payload, crc) segments, appending their raw bytes to `buf`,
until the IEND type is seen; return `none` on any empty read.  The loop is
given structurally as recursion on a fuel bound: every pass that recurses
consumes at least one byte of `s` (all four reads were non-empty), so a fuel
of `s.length` is never exhausted while `s` is non-empty, and at fuel 0 the
stream is empty and the fuel-0 result `none` agrees with the loop's own
empty-`raw_len` exit. -/
def readChunksF : List Nat → Nat → List Nat → Option (List Nat)
  | _, 0, _ => none
  | buf, fuel + 1, s =>
    let rawLen := s.take 4
    if rawLen = [] then none
    else
      let len := beNat rawLen
      let s1 := s.drop 4
      let ctype := s1.take 4
      let s2 := s1.drop 4
      let dat := s2.take len
      let s3 := s2.drop len
      let crc := s3.take 4
      let s4 := s3.drop 4
      if ctype = [] ∨ dat = [] ∨ crc = [] then none
      else
        let buf2 := buf ++ rawLen ++ ctype ++ dat ++ crc
        if ctype = iendType then some buf2
        else readChunksF buf2 fuel s4

/-- The chunk loop entered on a stream `s`, with its iteration bound. -/
def readChunks (buf : List Nat) (s : List Nat) : Option (List Nat) :=
  readChunksF buf s.length s

/-- `PngStream.next_png` (io_fast.py lines 58-85): check the 8-byte magic
signature, then accumulate chunks until IEND.  Returns `none` for an empty
read, a desynchronised signature, or any truncated segment. -/
def next_png (s : List Nat) : Option (List Nat) :=
  let sig := s.take 8
  if sig = [] then none
  else if sig ≠ pngMagic then none
  else readChunks pngMagic (s.drop 8)

/-- One raw (length, type, payload, crc) PNG segment, as laid out on the
wire: 4-byte big-endian payload length, 4 type bytes, payload, 4 CRC bytes. -/
def chunkBytes (ctype payload crc : List Nat) : List Nat :=
  [payload.length / 16777216 % 256, payload.length / 65536 % 256,
   payload.length / 256 % 256, payload.length % 256] ++ ctype ++ payload ++ crc

/-- A minimal complete, well-formed PNG record: magic signature, an IHDR
chunk (13-byte payload for a 1 x 1 image), a 1-byte IDAT chunk, and the
terminal IEND chunk with its mandatory empty payload. -/
def pngRecordEx : List Nat :=
  pngMagic
    ++ chunkBytes [73, 72, 68, 82] [0, 0, 0, 1, 0, 0, 0, 1, 8, 2, 0, 0, 0] [144, 119, 83, 222]
    ++ chunkBytes [73, 68, 65, 84] [120] [5, 39, 212, 74]
    ++ chunkBytes iendType [] [174, 66, 96, 130]

/-! ## Image decode: io_fast.decode_png and pogo_ui._next_frame -/

/-- A decoded raster frame: its dimensions (frame.shape[:2] = (h, w)) and
pixel payload, as produced by cv2.imdecode. -/
structure Img where
  h : Nat
  w : Nat
  pix : List Nat
deriving DecidableEq, Repr

/-- `decode_png` (io_fast.py lines 92-98).  cv2.imdecode is the oracle
`dec`; when it yields no image the Python code raises
RuntimeError("Failed to decode PNG frame"), modelled as `Except.error`. -/
def decode_png (dec : List Nat → Option Img) (pngBytes : List Nat) :
    Except String Img :=
  match dec pngBytes with
  | none => .error "Failed to decode PNG frame"
  | some img => .ok img

/-- `_next_frame` (pogo_ui.py lines 12-19), driven by the list of successive
`next_png` results: `none` results ("no frame this attempt") are skipped by
the `continue`; on the first `some png`, `decode_png` runs with NO exception
handler around it, so a failed decode escapes the loop as `Except.error`.
(The source's `if img is not None` test is vacuous: `decode_png` never
returns None — it raises instead.)  An overall `none` models a call that
never returns within the given attempts. -/
def next_frame (dec : List Nat → Option Img) :
    List (Option (List Nat)) → Option (Except String Img)
  | [] => none
  | none :: rest => next_frame dec rest
  | some png :: _ =>
    match decode_png dec png with
    | .error e => some (.error e)
    | .ok img => some (.ok img)

/-! ## Template Matcher: pogo_cv.match_template -/

/-- Python `int(q)`: truncation toward zero. -/
def truncQ (q : ℚ) : ℤ := if q < 0 then ⌈q⌉ else ⌊q⌋

/-- A match result tuple (x, y, w, h, confidence), with (x, y, w, h) a box
in the coordinate space of the original (unscaled) frame. -/
structure MatchResult where
  x : ℤ
  y : ℤ
  w : ℤ
  h : ℤ
  conf : ℚ
deriving DecidableEq, Repr

/-- The per-scale body of `match_template` (pogo_cv.py lines 26-34).  `mm s`
is the oracle for `minMaxLoc(matchTemplate(resize(scr, s), tpl))` at scale
`s` for the fixed frame and template of the call, returning
(max_loc, max_val); the located point is mapped back to original-frame
coordinates through `int(x / s)`, and the box dimensions come from the
template shape (th, tw) divided by the scale likewise. -/
def scaleResult (mm : ℚ → (ℤ × ℤ) × ℚ) (th tw : ℕ) (s : ℚ) : MatchResult :=
  { x := truncQ (((mm s).1.1 : ℚ) / s)
    y := truncQ (((mm s).1.2 : ℚ) / s)
    w := truncQ ((tw : ℚ) / s)
    h := truncQ ((th : ℚ) / s)
    conf := (mm s).2 }

/-- The best-so-far update of the scan loop (pogo_cv.py line 29):
`if best is None or max_val > best[-1]`. -/
def stepBest (mm : ℚ → (ℤ × ℤ) × ℚ) (th tw : ℕ)
    (best : Option MatchResult) (s : ℚ) : Option MatchResult :=
  match best with
  | none => some (scaleResult mm th tw s)
  | some b =>
    if b.conf < (mm s).2 then some (scaleResult mm th tw s) else some b

/-- `match_template` (pogo_cv.py lines 20-37): scan the scales keeping the
best result, then `if best and best[-1] >= thresh: return best` — a Python
tuple is always truthy, so `best` is only falsy when no scale was scanned. -/
def match_template (mm : ℚ → (ℤ × ℤ) × ℚ) (th tw : ℕ) (thresh : ℚ)
    (scales : List ℚ) : Option MatchResult :=
  match scales.foldl (stepBest mm th tw) none with
  | none => none
  | some b => if thresh ≤ b.conf then some b else none

/-- `center_of` (pogo_cv.py lines 43-45): (x + w//2, y + h//2), with
Python's flooring division `//`. -/
def center_of (b : MatchResult) : ℤ × ℤ :=
  (b.x + Int.fdiv b.w 2, b.y + Int.fdiv b.h 2)

/-! ## Locator Resolver and Action Driver: pogo_ui.py -/

/-- A command written to the persistent adb shell (io_fast.ShellSession):
the write side of the Input Channel. -/
inductive Cmd where
  | tap (x y : ℤ)
  | swipe (x1 y1 x2 y2 : ℤ) (durMs : ℕ)
deriving DecidableEq, Repr

/-- The polling loop of `wait_and_find` (pogo_ui.py lines 21-30) with wall
time explicit: the clock starts at t0 = 0, frame pulls and matching are
instantaneous, and each `time.sleep(poll)` after a miss advances the clock
by `poll`, so the guard `time.time() - t0 < timeout` before iteration i
reads `i * poll < timeout`.  `frames i` is the i-th decodable frame pulled
through `_next_frame`; `mtch` is `find_locator` for the call's template and
threshold (a Python 5-tuple is truthy, so `if hit:` is `isSome`).  The fuel
argument only bounds the recursion; `wait_and_find` passes `⌈timeout/poll⌉`,
which suffices for the guard to have failed whenever fuel reaches 0 (for
poll > 0), so the fuel-0 branch coincides with the guard-false exit.
Returns (`some (hit, frame)` or `none` for (None, None), clock at return). -/
def wafAux (frames : ℕ → Img) (mtch : Img → Option MatchResult)
    (timeout poll : ℚ) : ℕ → ℕ → Option (MatchResult × Img) × ℚ
  | 0, i => (none, (i : ℚ) * poll)
  | fuel + 1, i =>
    if (i : ℚ) * poll < timeout then
      match mtch (frames i) with
      | some hit => (some (hit, frames i), (i : ℚ) * poll)
      | none => wafAux frames mtch timeout poll fuel (i + 1)
    else (none, (i : ℚ) * poll)

/-- `wait_and_find` (pogo_ui.py lines 21-30). -/
def wait_and_find (frames : ℕ → Img) (mtch : Img → Option MatchResult)
    (timeout poll : ℚ) : Option (MatchResult × Img) × ℚ :=
  wafAux frames mtch timeout poll (Nat.ceil (timeout / poll)) 0

/-- `tap_locator` (pogo_ui.py lines 32-40): resolve with the fixed
timeout=3.0 (and the default poll 0.12); on a miss return False having sent
nothing; on a hit send one tap at `center_of hit`, sleep `wait_after` if
nonzero, return True.  Result: (returned bool, commands sent, clock at
return). -/
def tap_locator (frames : ℕ → Img) (mtch : Img → Option MatchResult)
    (wait_after : ℚ) : Bool × List Cmd × ℚ :=
  let r := wait_and_find frames mtch 3 (12/100)
  match r.1 with
  | none => (false, [], r.2)
  | some (hit, _) =>
    (true, [Cmd.tap (center_of hit).1 (center_of hit).2],
     r.2 + (if wait_after ≠ 0 then wait_after else 0))

/-- pogo_config.Swipe: fractional (0..1) start and end points plus a
duration in milliseconds.  (`endp` stands for the source field `end`, a
reserved word here.) -/
structure Swipe where
  start : ℚ × ℚ
  endp : ℚ × ℚ
  duration_ms : ℕ
deriving DecidableEq, Repr

/-- `_abs_points_from_swipe` (pogo_ui.py lines 53-57): H, W = frame.shape[:2],
then each fractional coordinate is scaled by W (x) or H (y) and truncated
with `int(...)`. -/
def abs_points_from_swipe (frame : Img) (sw : Swipe) : ℤ × ℤ × ℤ × ℤ :=
  (truncQ ((frame.w : ℚ) * sw.start.1), truncQ ((frame.h : ℚ) * sw.start.2),
   truncQ ((frame.w : ℚ) * sw.endp.1), truncQ ((frame.h : ℚ) * sw.endp.2))

/-- `swipe_by_name` (pogo_ui.py lines 59-66).  `stream` is the list of
decodable frames `_next_frame` yields in order; `swipes` models the
cfg.swipes dictionary as an association list.  The frame is pulled BEFORE
the name check; an unknown name then raises KeyError (`Except.error`)
having sent nothing.  Returns `none` when `_next_frame` never returns
(exhausted stream); otherwise (result, commands sent, remaining stream). -/
def swipe_by_name (swipes : List (String × Swipe)) (key : String)
    (stream : List Img) : Option (Except String Unit × List Cmd × List Img) :=
  match stream with
  | [] => none
  | frame :: rest =>
    match swipes.lookup key with
    | none => some (.error ("Unknown swipe " ++ key), [], rest)
    | some sw =>
      let p := abs_points_from_swipe frame sw
      some (.ok (), [Cmd.swipe p.1 p.2.1 p.2.2.1 p.2.2.2 sw.duration_ms], rest)

/-! ## Decidability helper and concrete inputs used by witnesses -/

instance {ε α : Type} [DecidableEq ε] [DecidableEq α] : DecidableEq (Except ε α)
  | .error a, .error b =>
    if h : a = b then isTrue (congrArg Except.error h)
    else isFalse fun hh => h (Except.error.inj hh)
  | .error _, .ok _ => isFalse fun hh => Except.noConfusion hh
  | .ok _, .error _ => isFalse fun hh => Except.noConfusion hh
  | .ok a, .ok b =>
    if h : a = b then isTrue (congrArg Except.ok h)
    else isFalse fun hh => h (Except.ok.inj hh)

/-- A tiny decoded frame. -/
def imgEx : Img := ⟨1, 1, [0, 0, 0]⟩

/-- A 1080 x 2400 (width x height) frame, so frame.shape[:2] = (2400, 1080). -/
def frameEx : Img := ⟨2400, 1080, []⟩

/-- A decoder oracle that accepts exactly the byte list [1]. -/
def decEx : List Nat → Option Img := fun b => if b = [1] then some imgEx else none

/-- A match with an odd-width, odd-height bounding box. -/
def mrOdd : MatchResult := ⟨0, 0, 3, 3, 1⟩

/-- A match with an even-width, even-height bounding box. -/
def mrEven : MatchResult := ⟨10, 20, 4, 6, 9/10⟩

/-- The swipe from the spec scenario: start (0.85, 0.50), end (0.20, 0.50). -/
def swEx : Swipe := ⟨(85/100, 50/100), (20/100, 50/100), 280⟩

/-- A matcher oracle whose confidence at scale s is s itself. -/
def mmEx : ℚ → (ℤ × ℤ) × ℚ := fun s => ((0, 0), s)

/-! ## The claims -/

/-- C1: for byte streams of complete well-formed PNG records, each
`next_png` call should return the next record's exact accumulated bytes.
It does not: a well-formed terminal IEND chunk has a 0-byte payload, so
`data = read(0) = b""` and the truncation guard `if not ctype or not data
or not crc: return None` fires before the `ctype == b"IEND"` return is
reached.  On `pngRecordEx` — one complete record (magic, IHDR, IDAT, IEND)
— the code yields `none` where the claim requires `some pngRecordEx`.  The
`return buf.getvalue()` line for IEND is unreachable on any well-formed
record, contradicting the docstring "Call next_png() to get one PNG frame
(bytes)". -/
theorem C1_next_png_drops_wellformed_record :
    next_png pngRecordEx = none ∧ pngRecordEx ≠ [] := by decide

/-- C2: the claim (and spec section 7) requires `_next_frame` to skip a
frame whose bytes fail to decode and retry with the next frame.  The code
does not: `decode_png` raises RuntimeError on a failed decode and
`_next_frame` has no handler, so the error propagates to the caller.  Here
the first pulled frame `[0]` fails to decode while the very next frame
`[1]` is decodable: the result is the propagated error, whereas skipping
(as on the tail alone) would have produced the decoded image. -/
theorem C2_next_frame_propagates_decode_error :
    next_frame decEx [some [0], some [1]]
        = some (Except.error "Failed to decode PNG frame")
      ∧ decEx [1] = some imgEx
      ∧ next_frame decEx [some [1]] = some (Except.ok imgEx) := by decide

/-- C8: on a 1080 x 2400 frame, the Swipe with fractional start
(0.85, 0.50) and end (0.20, 0.50) resolves to absolute points
(918, 1200) -> (216, 1200). -/
theorem C8_abs_points_1080x2400 :
    abs_points_from_swipe frameEx swEx = (918, 1200, 216, 1200) := by
  norm_num [abs_points_from_swipe, truncQ, frameEx, swEx]

/-- C9: `swipe_by_name` pulls one frame from the stream before validating
the swipe name, so an unknown name still consumes a frame: the call exits
with the KeyError, having sent no input command, with the transport
advanced past the pulled frame. -/
theorem C9_swipe_by_name_consumes_frame_on_unknown_key
    (swipes : List (String × Swipe)) (key : String) (frame : Img)
    (rest : List Img) (h : swipes.lookup key = none) :
    swipe_by_name swipes key (frame :: rest)
      = some (.error ("Unknown swipe " ++ key), [], rest) := by
  simp [swipe_by_name, h]

/-- Witness for C9 at a concrete configuration and stream. -/
theorem C9_witness :
    ([("toss", swEx)].lookup "fling" = none)
      ∧ swipe_by_name [("toss", swEx)] "fling" [frameEx, imgEx]
          = some (.error ("Unknown swipe " ++ "fling"), [], [imgEx]) :=
  ⟨rfl, C9_swipe_by_name_consumes_frame_on_unknown_key _ _ _ _ rfl⟩

/-- C10: with an empty scale sequence the scan loop never runs, `best`
stays None (the only falsy value for `if best`), and `match_template`
returns None for every frame, template and threshold. -/
theorem C10_match_template_empty_scales (mm : ℚ → (ℤ × ℤ) × ℚ)
    (th tw : ℕ) (thresh : ℚ) :
    match_template mm th tw thresh [] = none := rfl

/-! ## Locator Resolver timing (C5) and tap_locator (C4) -/

/-- If the very first pulled frame matches, `wait_and_find` returns that
hit with that frame at elapsed time 0 (no sleep has happened yet). -/
theorem waf_first_hit (frames : ℕ → Img) (mtch : Img → Option MatchResult)
    (timeout poll : ℚ) (hit : MatchResult) (hpos : 0 < timeout)
    (hceil : Nat.ceil (timeout / poll) ≠ 0) (hm : mtch (frames 0) = some hit) :
    wait_and_find frames mtch timeout poll = (some (hit, frames 0), 0) := by
  obtain ⟨n, hn⟩ := Nat.exists_eq_succ_of_ne_zero hceil
  rw [wait_and_find, hn]
  simp [wafAux, hpos, hm]

/-- Invariant of the polling loop when the matcher never matches: the loop
returns the miss sentinel and its clock never passes `timeout + poll`. -/
theorem wafAux_miss_bound (frames : ℕ → Img) (mtch : Img → Option MatchResult)
    (timeout poll : ℚ) (hmiss : ∀ j, mtch (frames j) = none) :
    ∀ (fuel i : ℕ), (i : ℚ) * poll ≤ timeout + poll →
      (wafAux frames mtch timeout poll fuel i).1 = none ∧
        (wafAux frames mtch timeout poll fuel i).2 ≤ timeout + poll := by
  intro fuel
  induction fuel with
  | zero => intro i hi; exact ⟨rfl, hi⟩
  | succ fuel ih =>
    intro i hi
    by_cases hg : (i : ℚ) * poll < timeout
    · have hnext : ((i + 1 : ℕ) : ℚ) * poll ≤ timeout + poll := by
        push_cast
        nlinarith [hg]
      simpa [wafAux, hg, hmiss i] using ih (i + 1) hnext
    · exact ⟨by simp [wafAux, hg], by simp [wafAux, hg]; exact hi⟩

/-- C5: for every frame source all of whose frames decode but never match,
`wait_and_find` (the Locator Resolver's `locate`) terminates, returns the
(None, None) sentinel, and its wall-clock elapsed time is at most
`timeout + poll` — one poll interval past the timeout. -/
theorem C5_wait_and_find_timeout_bound (frames : ℕ → Img)
    (mtch : Img → Option MatchResult) (timeout poll : ℚ) (hpoll : 0 < poll)
    (htime : 0 ≤ timeout) (hmiss : ∀ j, mtch (frames j) = none) :
    (wait_and_find frames mtch timeout poll).1 = none ∧
      (wait_and_find frames mtch timeout poll).2 ≤ timeout + poll := by
  rw [wait_and_find]
  exact wafAux_miss_bound frames mtch timeout poll hmiss _ 0
    (by push_cast; nlinarith)

/-- Witness for C5: a never-matching matcher with timeout 1 and poll 1. -/
theorem C5_witness :
    (0 : ℚ) < 1 ∧ (0 : ℚ) ≤ 1 ∧
      (wait_and_find (fun _ => frameEx) (fun _ => none) 1 1).1 = none ∧
      (wait_and_find (fun _ => frameEx) (fun _ => none) 1 1).2 ≤ 1 + 1 :=
  ⟨one_pos, zero_le_one,
    C5_wait_and_find_timeout_bound (fun _ => frameEx) (fun _ => none) 1 1
      one_pos zero_le_one (fun _ => rfl)⟩

/-- The exact (rational) center of a match's bounding box, following the
claim's words: (x + w/2, y + h/2) with exact halves. -/
def specExactCenter (b : MatchResult) : ℚ × ℚ :=
  ((b.x : ℚ) + (b.w : ℚ) / 2, (b.y : ℚ) + (b.h : ℚ) / 2)

/-- C4 (amended): `tap_locator` resolves its locator through
`wait_and_find` with the fixed timeout 3.0 (and poll 0.12); on a miss it
returns False having sent nothing; on a hit with bounding box (x, y, w, h)
it sends exactly one tap at (x + w//2, y + h//2) — the bounding-box center
rounded down to whole pixels — then waits `wait_after` and returns True. -/
theorem C4_tap_locator_center (frames : ℕ → Img)
    (mtch : Img → Option MatchResult) (wait_after : ℚ) :
    (∀ c, wait_and_find frames mtch 3 (12/100) = (none, c) →
        tap_locator frames mtch wait_after = (false, [], c))
      ∧ ∀ hit img c, wait_and_find frames mtch 3 (12/100) = (some (hit, img), c) →
          tap_locator frames mtch wait_after =
            (true, [Cmd.tap (hit.x + Int.fdiv hit.w 2) (hit.y + Int.fdiv hit.h 2)],
              c + if wait_after ≠ 0 then wait_after else 0) := by
  constructor
  · intro c hc
    simp [tap_locator, hc]
  · intro hit img c hc
    simp [tap_locator, hc, center_of]

/-- Witness for C4 at a concrete immediate hit with an even-sized box. -/
theorem C4_witness :
    wait_and_find (fun _ => frameEx) (fun _ => some mrEven) 3 (12/100)
        = (some (mrEven, frameEx), 0)
      ∧ tap_locator (fun _ => frameEx) (fun _ => some mrEven) 0 =
          (true, [Cmd.tap (mrEven.x + Int.fdiv mrEven.w 2)
            (mrEven.y + Int.fdiv mrEven.h 2)],
            0 + if (0 : ℚ) ≠ 0 then (0 : ℚ) else 0) := by
  have hwaf : wait_and_find (fun _ => frameEx) (fun _ => some mrEven) 3 (12/100)
      = (some (mrEven, frameEx), 0) :=
    waf_first_hit _ _ _ _ _ (by norm_num) (by norm_num) rfl
  exact ⟨hwaf,
    (C4_tap_locator_center (fun _ => frameEx) (fun _ => some mrEven) 0).2
      mrEven frameEx 0 hwaf⟩

/-- Counterexample to C4 as stated: with a hit whose bounding box is
(0, 0, 3, 3) the code taps (1, 1), but the exact center of that box is
(3/2, 3/2): a tap "at the exact center" is impossible for odd box
dimensions, and the code floors. -/
theorem C4_counterexample :
    tap_locator (fun _ => frameEx) (fun _ => some mrOdd) 0
        = (true, [Cmd.tap 1 1], 0)
      ∧ ((1 : ℚ), (1 : ℚ)) ≠ specExactCenter mrOdd := by
  have hwaf : wait_and_find (fun _ => frameEx) (fun _ => some mrOdd) 3 (12/100)
      = (some (mrOdd, frameEx), 0) :=
    waf_first_hit _ _ _ _ _ (by norm_num) (by norm_num) rfl
  constructor
  · simp [tap_locator, hwaf, center_of]
    decide
  · intro h
    have h1 := congrArg Prod.fst h
    norm_num [specExactCenter, mrOdd] at h1

/-! ## Template Matcher selection logic (C3, C6) -/

/-- The per-scale result carries that scale's correlation maximum as its
confidence. -/
@[simp] theorem scaleResult_conf (mm : ℚ → (ℤ × ℤ) × ℚ) (th tw : ℕ)
    (s : ℚ) : (scaleResult mm th tw s).conf = (mm s).2 := rfl

/-- Running the best-so-far update over a scale list from an existing best
yields a result no worse than the start or any scanned scale, and the
result is the start or one of the scanned per-scale results. -/
theorem foldl_stepBest_some (mm : ℚ → (ℤ × ℤ) × ℚ) (th tw : ℕ) :
    ∀ (l : List ℚ) (b : MatchResult),
      ∃ r, l.foldl (stepBest mm th tw) (some b) = some r ∧
        b.conf ≤ r.conf ∧ (∀ s ∈ l, (mm s).2 ≤ r.conf) ∧
        (r = b ∨ ∃ s ∈ l, r = scaleResult mm th tw s) := by
  intro l
  induction l with
  | nil => exact fun b => ⟨b, rfl, le_refl _, by simp, Or.inl rfl⟩
  | cons s t ih =>
    intro b
    by_cases hc : b.conf < (mm s).2
    · obtain ⟨r, hr, hble, hub, hmem⟩ := ih (scaleResult mm th tw s)
      refine ⟨r, ?_, ?_, ?_, ?_⟩
      · simpa [stepBest, hc] using hr
      · exact le_trans (le_of_lt hc) (by simpa using hble)
      · intro u hu
        rcases List.mem_cons.mp hu with rfl | hu2
        · simpa using hble
        · exact hub u hu2
      · rcases hmem with rfl | ⟨u, hu, hru⟩
        · exact Or.inr ⟨s, List.mem_cons_self s t, rfl⟩
        · exact Or.inr ⟨u, List.mem_cons_of_mem s hu, hru⟩
    · obtain ⟨r, hr, hble, hub, hmem⟩ := ih b
      refine ⟨r, ?_, hble, ?_, ?_⟩
      · simpa [stepBest, hc] using hr
      · intro u hu
        rcases List.mem_cons.mp hu with rfl | hu2
        · exact le_trans (not_lt.mp hc) hble
        · exact hub u hu2
      · rcases hmem with rfl | ⟨u, hu, hru⟩
        · exact Or.inl rfl
        · exact Or.inr ⟨u, List.mem_cons_of_mem s hu, hru⟩

/-- On a non-empty scale list the scan produces the per-scale result of
some scanned scale whose correlation maximum dominates all scanned
scales. -/
theorem foldl_stepBest_best (mm : ℚ → (ℤ × ℤ) × ℚ) (th tw : ℕ)
    (l : List ℚ) (hne : l ≠ []) :
    ∃ s ∈ l, l.foldl (stepBest mm th tw) none = some (scaleResult mm th tw s) ∧
      ∀ u ∈ l, (mm u).2 ≤ (mm s).2 := by
  obtain ⟨s0, t, rfl⟩ := List.exists_cons_of_ne_nil hne
  obtain ⟨r, hr, hble, hub, hmem⟩ :=
    foldl_stepBest_some mm th tw t (scaleResult mm th tw s0)
  have hfold : (s0 :: t).foldl (stepBest mm th tw) none = some r := by
    simpa [stepBest] using hr
  rcases hmem with rfl | ⟨u, hu, rfl⟩
  · refine ⟨s0, List.mem_cons_self s0 t, hfold, ?_⟩
    intro u hu
    rcases List.mem_cons.mp hu with rfl | hu2
    · simp
    · simpa using hub u hu2
  · refine ⟨u, List.mem_cons_of_mem s0 hu, hfold, ?_⟩
    intro v hv
    rcases List.mem_cons.mp hv with rfl | hv2
    · simpa using hble
    · simpa using hub v hv2

/-- C3: on a non-empty scale list, `match_template` finds a scanned scale
`s` whose correlation maximum dominates every scanned scale; it returns
that scale's result exactly when that best confidence reaches the
threshold (and None otherwise), and any returned result carries the best
confidence — hence confidence at least the threshold. -/
theorem C3_match_template_threshold (mm : ℚ → (ℤ × ℤ) × ℚ) (th tw : ℕ)
    (thresh : ℚ) (l : List ℚ) (hne : l ≠ []) :
    ∃ s ∈ l, (∀ u ∈ l, (mm u).2 ≤ (mm s).2) ∧
      match_template mm th tw thresh l =
        (if thresh ≤ (mm s).2 then some (scaleResult mm th tw s) else none) ∧
      ∀ r, match_template mm th tw thresh l = some r →
        r.conf = (mm s).2 ∧ thresh ≤ r.conf := by
  obtain ⟨s, hs, hfold, hmax⟩ := foldl_stepBest_best mm th tw l hne
  have hmt : match_template mm th tw thresh l =
      (if thresh ≤ (mm s).2 then some (scaleResult mm th tw s) else none) := by
    rw [match_template, hfold]
    simp
  refine ⟨s, hs, hmax, hmt, ?_⟩
  intro r hr
  rw [hmt] at hr
  by_cases hth : thresh ≤ (mm s).2
  · rw [if_pos hth] at hr
    have := Option.some.inj hr
    exact ⟨by rw [← this, scaleResult_conf], by rw [← this, scaleResult_conf]; exact hth⟩
  · rw [if_neg hth] at hr
    exact absurd hr (by simp)

/-- Witness for C3 on the oracle whose confidence at scale s is s, over
the scales [1, 2] with threshold 3/2. -/
theorem C3_witness :
    ([(1 : ℚ), 2] ≠ []) ∧
      ∃ s ∈ [(1 : ℚ), 2], (∀ u ∈ [(1 : ℚ), 2], (mmEx u).2 ≤ (mmEx s).2) ∧
        match_template mmEx 5 4 (3/2) [1, 2] =
          (if (3/2 : ℚ) ≤ (mmEx s).2 then some (scaleResult mmEx 5 4 s) else none) ∧
        ∀ r, match_template mmEx 5 4 (3/2) [1, 2] = some r →
          r.conf = (mmEx s).2 ∧ (3/2 : ℚ) ≤ r.conf :=
  ⟨by decide, C3_match_template_threshold mmEx 5 4 (3/2) [1, 2] (by decide)⟩

/-- Scales with pairwise-distinct per-scale confidences are determined by
their confidence. -/
theorem conf_injOn (mm : ℚ → (ℤ × ℤ) × ℚ) (l : List ℚ)
    (hdist : (l.map fun s => (mm s).2).Pairwise (· ≠ ·)) :
    ∀ a ∈ l, ∀ b ∈ l, (mm a).2 = (mm b).2 → a = b := by
  rw [List.pairwise_map] at hdist
  have hforall := hdist.forall (fun _ _ hab => Ne.symm hab)
  intro a ha b hb heq
  by_contra hne
  exact hforall ha hb hne heq

/-- C6: the order of the candidate scales does not affect the result of
`match_template` when the per-scale maximal confidences are pairwise
distinct (so no two scales tie): any permutation of the scale list yields
the identical result. -/
theorem C6_match_template_scale_order (mm : ℚ → (ℤ × ℤ) × ℚ) (th tw : ℕ)
    (thresh : ℚ) (l l2 : List ℚ) (hperm : l.Perm l2)
    (hdist : (l.map fun s => (mm s).2).Pairwise (· ≠ ·)) :
    match_template mm th tw thresh l = match_template mm th tw thresh l2 := by
  rcases eq_or_ne l [] with rfl | hne
  · rw [hperm.symm.eq_nil]
  · have hne2 : l2 ≠ [] := by
      intro hnil
      rw [hnil] at hperm
      exact hne hperm.eq_nil
    obtain ⟨s, hs, hf, hmax⟩ := foldl_stepBest_best mm th tw l hne
    obtain ⟨s2, hs2, hf2, hmax2⟩ := foldl_stepBest_best mm th tw l2 hne2
    have hle1 : (mm s).2 ≤ (mm s2).2 := hmax2 s (hperm.subset hs)
    have hle2 : (mm s2).2 ≤ (mm s).2 := hmax s2 (hperm.symm.subset hs2)
    have hss : s = s2 :=
      conf_injOn mm l hdist s hs s2 (hperm.symm.subset hs2)
        (le_antisymm hle1 hle2)
    rw [match_template, match_template, hf, hf2, hss]

/-- Witness for C6: the scales [1, 2] against their transposition [2, 1]
under an oracle with distinct per-scale confidences. -/
theorem C6_witness :
    ([(1 : ℚ), 2].Perm [2, 1]) ∧
      (([(1 : ℚ), 2].map fun s => (mmEx s).2).Pairwise (· ≠ ·)) ∧
      match_template mmEx 5 4 (3/2) [1, 2] = match_template mmEx 5 4 (3/2) [2, 1] :=
  ⟨List.Perm.swap 2 1 [], by decide,
    C6_match_template_scale_order mmEx 5 4 (3/2) [1, 2] [2, 1]
      (List.Perm.swap 2 1 []) (by decide)⟩

/-! ## swipe_by_name (C7) -/

/-- C7: `swipe_by_name` errors (raises KeyError) exactly when the given
name is not among the configured swipes; for a configured name it sends
exactly one swipe command whose coordinates are resolved from the pulled
frame's dimensions by `abs_points_from_swipe`. -/
theorem C7_swipe_by_name_unknown_key_fatal (swipes : List (String × Swipe))
    (key : String) (frame : Img) (rest : List Img) :
    ((∃ e cs rem, swipe_by_name swipes key (frame :: rest)
        = some (.error e, cs, rem)) ↔ swipes.lookup key = none)
      ∧ ∀ sw, swipes.lookup key = some sw →
          swipe_by_name swipes key (frame :: rest) =
            some (.ok (), [Cmd.swipe (abs_points_from_swipe frame sw).1
              (abs_points_from_swipe frame sw).2.1
              (abs_points_from_swipe frame sw).2.2.1
              (abs_points_from_swipe frame sw).2.2.2 sw.duration_ms], rest) := by
  cases hlk : swipes.lookup key with
  | none =>
    refine ⟨⟨fun _ => rfl, fun _ => ?_⟩, fun sw hsw => nomatch hsw⟩
    exact ⟨"Unknown swipe " ++ key, [], rest, by simp [swipe_by_name, hlk]⟩
  | some sw =>
    refine ⟨⟨?_, fun hnone => nomatch hnone⟩, ?_⟩
    · rintro ⟨e, cs, rem, habs⟩
      simp [swipe_by_name, hlk] at habs
    · intro sw2 hsw2
      cases hsw2
      simp [swipe_by_name, hlk]

/-- Witness for C7: the configured swipe "toss" on a 1080 x 2400 frame
sends exactly one absolute-pixel swipe command. -/
theorem C7_witness :
    ([("toss", swEx)].lookup "toss" = some swEx) ∧
      swipe_by_name [("toss", swEx)] "toss" [frameEx, imgEx] =
        some (.ok (), [Cmd.swipe (abs_points_from_swipe frameEx swEx).1
          (abs_points_from_swipe frameEx swEx).2.1
          (abs_points_from_swipe frameEx swEx).2.2.1
          (abs_points_from_swipe frameEx swEx).2.2.2 swEx.duration_ms], [imgEx]) :=
  ⟨rfl, (C7_swipe_by_name_unknown_key_fatal [("toss", swEx)] "toss" frameEx
    [imgEx]).2 swEx rfl⟩
